import Mathlib

/-!
Verification development for the YouTube Content Performance Analyzer
(`streamlit_app.py`).

Part A embeds the data transformations performed by the dashboard script:
the comment table (`CommentRow`), the "Most Liked Comments" selection
(`top_11`), the "Most Replied Comments" selection (`topReplies11`), the
language histogram (`langCounts`), and the sentiment chart data
(`dataList`), which pandas computes with `value_counts` over the
English-only subset of the comment table.

Part B models, from the specification, the pipeline components whose
implementation lives outside the dashboard script: the text normalizer,
the engagement-rate computation, and the monthly bucketing.  Text is
embedded as a list of Unicode code points (`List Nat`).
-/

namespace YTCPA

/-- One row of the comment dataframe produced by `parse_video`: columns
Author, Comment, Timestamp, Likes, TotalReplies, Language and
TextBlob_Sentiment_Type. -/
structure CommentRow where
  author : String
  comment : String
  timestamp : String
  likes : Nat
  totalReplies : Nat
  language : String
  sentiment : String
deriving DecidableEq

/-- Insert an element into a list that is sorted descending on `key`,
keeping the descending order. -/
def insDesc {α : Type} (key : α → Nat) (a : α) : List α → List α
  | [] => [a]
  | x :: xs => if key x < key a then a :: x :: xs else x :: insDesc key a xs

/-- Sort a list descending on `key` (models pandas
`sort_values(..., ascending=False)`; pandas' default quicksort fixes no
order among ties, so only the descending order on `key` is meaningful). -/
def sortByKeyDesc {α : Type} (key : α → Nat) (l : List α) : List α :=
  l.foldr (insDesc key) []

/-- `df.sort_values("Likes", ascending=False).head(11)`: the rows shown
in the "Most Liked Comments" grid. -/
def top_11 (df : List CommentRow) : List CommentRow :=
  (sortByKeyDesc (fun r => r.likes) df).take 11

/-- `df.sort_values("TotalReplies", ascending=False).head(11)`: the rows
shown in the "Most Replied Comments" grid. -/
def topReplies11 (df : List CommentRow) : List CommentRow :=
  (sortByKeyDesc (fun r => r.totalReplies) df).take 11

/-- pandas `value_counts`: one `(value, count)` row per distinct value,
sorted by count descending. -/
def valueCounts (vs : List String) : List (String × Nat) :=
  sortByKeyDesc (fun p => p.2) (vs.dedup.map (fun v => (v, vs.count v)))

/-- `df["Language"].value_counts()`: the language histogram, built from
the full (unfiltered) comment table. -/
def langCounts (df : List CommentRow) : List (String × Nat) :=
  valueCounts (df.map (fun r => r.language))

/-- `df[df["Language"] == "English"]`: the subset of the comment table
over which the sentiment chart is computed. -/
def englishOnly (df : List CommentRow) : List CommentRow :=
  df.filter (fun r => r.language == "English")

/-- Rows of the shape shared by the concrete comment tables used in the
closed instances below (empty text and timestamp fields). -/
def mkRow (a : String) (lk tr : Nat) (lang sent : String) : CommentRow :=
  ⟨a, "", "", lk, tr, lang, sent⟩

/-- pandas `.round(1)`: round a rational to one decimal place. -/
def round1 (q : ℚ) : ℚ := ((round (q * 10) : ℤ) : ℚ) / 10

/-- A value in the sentiment chart: the "No sentiment data" branch sends
a raw integer count, the normal branch sends a percentage. -/
inductive ChartVal where
  | count (n : Nat)
  | percent (q : ℚ)
deriving DecidableEq

/-- One entry of the echarts pie series `data` list. -/
structure ChartEntry where
  name : String
  value : ChartVal
deriving DecidableEq

/-- `percent_map.get(label, 0.0)`: look up a label's Review_percent in
the counts-with-percent table, defaulting to 0. -/
def pmGet (tbl : List (String × Nat × ℚ)) (lab : String) : ℚ :=
  match tbl.find? (fun r => r.1 == lab) with
  | some r => r.2.2
  | none => 0

/-- `value_counts` of the TextBlob_Sentiment_Type column of a (already
English-filtered) subset `s` of the comment table. -/
def scTable (s : List CommentRow) : List (String × Nat) :=
  valueCounts (s.map (fun r => r.sentiment))

/-- `data_sentiments["counts"].sum()`. -/
def scTotal (s : List CommentRow) : Nat :=
  ((scTable s).map (fun p => p.2)).sum

/-- The counts table with the `Review_percent` column appended:
`round(100.0 * counts / counts.sum(), 1)`. -/
def scWithPct (s : List CommentRow) : List (String × Nat × ℚ) :=
  (scTable s).map
    (fun p => (p.1, p.2, round1 (100 * (p.2 : ℚ) / (scTotal s : ℚ))))

/-- The sentiment chart `data_list`, as a function of the (already
English-filtered) subset `s`: either a single raw-count entry (when
"No sentiment data" occurs among the sentiment values) or the three
fixed percentage entries NEUTRAL, POSITIVE, NEGATIVE with absent labels
defaulting to 0.0.  `iloc[0]` is the head of the count-sorted table; the
`headD` default is unreachable because the branch guard forces the table
to be nonempty. -/
def dataListFrom (s : List CommentRow) : List ChartEntry :=
  if (scTable s).any (fun p => p.1 == "No sentiment data") then
    [⟨"No sentiment data", ChartVal.count (((scTable s).headD ("", 0)).2)⟩]
  else
    [⟨"NEUTRAL", ChartVal.percent (pmGet (scWithPct s) "NEUTRAL")⟩,
     ⟨"POSITIVE", ChartVal.percent (pmGet (scWithPct s) "POSITIVE")⟩,
     ⟨"NEGATIVE", ChartVal.percent (pmGet (scWithPct s) "NEGATIVE")⟩]

/-- The sentiment chart data of a run: `data_list` computed over the
English-only subset of the comment table. -/
def dataList (df : List CommentRow) : List ChartEntry :=
  dataListFrom (englishOnly df)

/-- `data_sentiments`: `value_counts` of the TextBlob_Sentiment_Type
column of the English-only subset of the comment table. -/
def sentimentCounts (df : List CommentRow) : List (String × Nat) :=
  scTable (englishOnly df)

/-- `"No sentiment data" in data_sentiments["Sentiment"].values`. -/
def hasNoSentimentData (df : List CommentRow) : Bool :=
  (sentimentCounts df).any (fun p => p.1 == "No sentiment data")

/-- What one run of the script renders: nothing (blank page) when the
URL field is empty, the dashboard page on success, or the
`st.error` banner produced by the top-level `except` handler. -/
inductive RenderResult where
  | blank
  | page (metrics : Nat × Nat × Nat) (top : List CommentRow)
      (langs : List (String × Nat)) (replies : List CommentRow)
      (chart : List ChartEntry)
  | errorBanner (msg : String)
deriving DecidableEq

/-- The body of the `try` block: fetch the comment table and the metrics
(either may raise, modelled as `Except.error`), then compute every view
of the dashboard. -/
def appBody (fetchDf : String → Except String (List CommentRow))
    (fetchMetrics : String → Except String (Nat × Nat × Nat))
    (url : String) :
    Except String ((Nat × Nat × Nat) × List CommentRow ×
      List (String × Nat) × List CommentRow × List ChartEntry) := do
  let df ← fetchDf url
  let m ← fetchMetrics url
  pure (m, top_11 df, langCounts df, topReplies11 df, dataList df)

/-- One run of the script: `if VIDEO_URL:` guards the whole body (an
empty string is falsy, so nothing runs), and the top-level
`except Exception as e: st.error(e)` turns any raised fault into an
error banner. -/
def runApp (fetchDf : String → Except String (List CommentRow))
    (fetchMetrics : String → Except String (Nat × Nat × Nat))
    (url : String) : RenderResult :=
  if url = "" then RenderResult.blank
  else
    match appBody fetchDf fetchMetrics url with
    | Except.ok (m, t, l, r, c) => RenderResult.page m t l r c
    | Except.error e => RenderResult.errorBanner e

/-- A sequence of runs: each submitted URL is processed independently by
`runApp` (the script keeps no mutable state across runs). -/
def session (fetchDf : String → Except String (List CommentRow))
    (fetchMetrics : String → Except String (Nat × Nat × Nat))
    (urls : List String) : List RenderResult :=
  urls.map (runApp fetchDf fetchMetrics)

/-! ### Part B: components modelled from the specification

The normalizer, the engagement-rate computation and the monthly
bucketing live in the `transform` module, which is not part of the
dashboard script; they are modelled here from the specification's
description.  Text is a list of Unicode code points. -/

/-- Code points of a string literal, for readable concrete inputs. -/
def codes (s : String) : List Nat := s.data.map Char.toNat

/-- Whitespace code points (space, tab, LF, VT, FF, CR). -/
def isWS (c : Nat) : Bool :=
  c = 32 || c = 9 || c = 10 || c = 11 || c = 12 || c = 13

/-- Modelled from the spec: the normalizer's allowed character set,
"alphanumeric and whitespace" (`a-z`, `A-Z`, `0-9`, whitespace). -/
def isAllowed (c : Nat) : Bool :=
  (97 ≤ c && c ≤ 122) || (65 ≤ c && c ≤ 90) || (48 ≤ c && c ≤ 57) || isWS c

/-- Lowercasing of one code point (`A`–`Z` maps to `a`–`z`). -/
def lowerCode (c : Nat) : Nat :=
  if 65 ≤ c && c ≤ 90 then c + 32 else c

/-- Modelled from the spec: a token matches the URL pattern when it
starts with `http` or `www`. -/
def isURLToken (t : List Nat) : Bool :=
  t.take 4 == codes "http" || t.take 3 == codes "www"

/-- Drop a token entirely when it matches the URL pattern. -/
def flushTok (t : List Nat) : List Nat :=
  if isURLToken t then [] else t

/-- Worker for URL removal: `tok` accumulates (reversed) the current
whitespace-free token; whitespace is copied through verbatim and each
completed token is kept or dropped by `flushTok`. -/
def removeURLsGo (tok : List Nat) : List Nat → List Nat
  | [] => flushTok tok.reverse
  | c :: cs =>
      if isWS c then flushTok tok.reverse ++ c :: removeURLsGo [] cs
      else removeURLsGo (c :: tok) cs

/-- Modelled from the spec: "remove all substrings matching a URL
pattern (`http…` or `www…` tokens)"; every maximal whitespace-free run
beginning with `http` or `www` is deleted, all other text is kept. -/
def removeURLs (s : List Nat) : List Nat := removeURLsGo [] s

/-- Strip leading and trailing whitespace. -/
def trimText (s : List Nat) : List Nat :=
  ((s.dropWhile isWS).reverse.dropWhile isWS).reverse

/-- Modelled from the spec (Text Normalizer, missing from the dashboard
script): remove URL tokens, remove all characters outside the allowed
set, trim, and lowercase. -/
def normalize (s : List Nat) : List Nat :=
  (trimText ((removeURLs s).filter isAllowed)).map lowerCode

/-- Round a rational to two decimal places. -/
def round2 (q : ℚ) : ℚ := ((round (q * 100) : ℤ) : ℚ) / 100

/-- Modelled from the spec (Engagement Rate, missing from the dashboard
script): `(likeCount + commentCount) / viewCount × 100`, rounded to two
decimals.  Per the spec's design notes the source guards nothing, so at
`viewCount = 0` the Python division raises; `none` models that raise. -/
def engagementRate (likes comments views : Nat) : Option ℚ :=
  if views = 0 then none
  else some (round2 (((likes : ℚ) + (comments : ℚ)) / (views : ℚ) * 100))

/-- A comment's publication date, reduced to the fields monthly
bucketing reads (`month` is 1-based). -/
structure DatedComment where
  year : Nat
  month : Nat
deriving DecidableEq

/-- The linearized month key: chronological order of "YYYY-MM" strings
is numeric order of `year * 12 + (month - 1)`. -/
def monthKey (c : DatedComment) : Nat := c.year * 12 + (c.month - 1)

/-- Modelled from the spec (monthly bucketing, missing from the
dashboard script): group comments by calendar month and emit one
`(monthKey, count)` bucket per occupied month, ordered chronologically
by month key rather than by insertion order. -/
def monthlyBuckets (cs : List DatedComment) : List (Nat × Nat) :=
  ((List.range ((cs.map monthKey).foldr max 0 + 1)).filter
      (fun k => decide (k ∈ cs.map monthKey))).map
    (fun k => (k, (cs.map monthKey).count k))

/-! ### Concrete sample inputs for the closed instances below -/

/-- Six comments, five Positive and one Negative, with distinct like
counts. -/
def dfSix : List CommentRow :=
  [mkRow "a" 10 0 "English" "POSITIVE", mkRow "b" 20 1 "English" "POSITIVE",
   mkRow "c" 30 2 "English" "POSITIVE", mkRow "d" 40 3 "English" "POSITIVE",
   mkRow "e" 50 4 "English" "POSITIVE", mkRow "f" 60 5 "English" "NEGATIVE"]

/-- Two comments with distinct like counts and languages. -/
def dfPair : List CommentRow :=
  [mkRow "a" 3 1 "English" "POSITIVE", mkRow "b" 7 2 "Spanish" "NEGATIVE"]

/-- One English comment and one Spanish comment, both Positive. -/
def dfMixedLang : List CommentRow :=
  [mkRow "a" 0 0 "English" "POSITIVE", mkRow "b" 0 0 "Spanish" "POSITIVE"]

/-- Three comments, two English with sentiment labels and one French. -/
def dfThree : List CommentRow :=
  [mkRow "a" 1 0 "English" "POSITIVE", mkRow "b" 2 0 "English" "NEGATIVE",
   mkRow "c" 3 0 "French" "POSITIVE"]

/-- Two comments whose language differs, for the scope witness. -/
def dfScope : List CommentRow :=
  [mkRow "a" 5 4 "English" "NEUTRAL", mkRow "b" 2 9 "German" "POSITIVE"]

/-- English comments whose sentiment column holds "No sentiment data". -/
def dfNoSent : List CommentRow :=
  [mkRow "a" 0 0 "English" "No sentiment data",
   mkRow "b" 0 0 "English" "No sentiment data",
   mkRow "c" 0 0 "English" "POSITIVE"]

/-- English comments with ordinary sentiment labels only. -/
def dfLabelled : List CommentRow :=
  [mkRow "a" 0 0 "English" "POSITIVE", mkRow "b" 0 0 "English" "POSITIVE",
   mkRow "c" 0 0 "English" "NEGATIVE"]

/-- Comments spanning three months, unordered. -/
def datesUnordered : List DatedComment :=
  [⟨2023, 3⟩, ⟨2023, 1⟩, ⟨2022, 12⟩, ⟨2023, 3⟩]

/-- The same comments in another order. -/
def datesShuffled : List DatedComment :=
  [⟨2022, 12⟩, ⟨2023, 3⟩, ⟨2023, 3⟩, ⟨2023, 1⟩]

/-! ### Helper lemmas about the sorting and counting primitives -/

theorem insDesc_perm {α : Type} (key : α → Nat) (a : α) (l : List α) :
    (insDesc key a l).Perm (a :: l) := by
  induction l with
  | nil => exact List.Perm.refl _
  | cons x xs ih =>
    rw [insDesc]
    split
    · exact List.Perm.refl _
    · exact (List.Perm.cons x ih).trans (List.Perm.swap a x xs)

theorem sortByKeyDesc_perm {α : Type} (key : α → Nat) (l : List α) :
    (sortByKeyDesc key l).Perm l := by
  induction l with
  | nil => exact List.Perm.refl _
  | cons x xs ih =>
    exact (insDesc_perm key x (sortByKeyDesc key xs)).trans (List.Perm.cons x ih)

theorem insDesc_pairwise {α : Type} (key : α → Nat) (a : α) {l : List α}
    (h : l.Pairwise (fun u v => key v ≤ key u)) :
    (insDesc key a l).Pairwise (fun u v => key v ≤ key u) := by
  induction l with
  | nil => simp [insDesc]
  | cons x xs ih =>
    rw [List.pairwise_cons] at h
    rw [insDesc]
    split
    · next hlt =>
      rw [List.pairwise_cons]
      refine ⟨?_, List.pairwise_cons.mpr h⟩
      intro b hb
      rcases List.mem_cons.mp hb with hb | hb
      · exact hb ▸ Nat.le_of_lt hlt
      · exact Nat.le_trans (h.1 b hb) (Nat.le_of_lt hlt)
    · next hge =>
      rw [List.pairwise_cons]
      refine ⟨?_, ih h.2⟩
      intro b hb
      have hb' : b ∈ a :: xs := (insDesc_perm key a xs).mem_iff.mp hb
      rcases List.mem_cons.mp hb' with hb' | hb'
      · exact hb' ▸ Nat.le_of_not_lt hge
      · exact h.1 b hb'

theorem sortByKeyDesc_pairwise {α : Type} (key : α → Nat) (l : List α) :
    (sortByKeyDesc key l).Pairwise (fun u v => key v ≤ key u) := by
  induction l with
  | nil => simp [sortByKeyDesc]
  | cons x xs ih => exact insDesc_pairwise key x ih

theorem sortTake_perm_of_le {α : Type} (key : α → Nat) {l : List α} {n : Nat}
    (h : l.length ≤ n) : ((sortByKeyDesc key l).take n).Perm l := by
  have hlen : (sortByKeyDesc key l).length = l.length :=
    (sortByKeyDesc_perm key l).length_eq
  rw [List.take_of_length_le (by rw [hlen]; exact h)]
  exact sortByKeyDesc_perm key l

theorem valueCounts_sum (vs : List String) :
    ((valueCounts vs).map (fun p => p.2)).sum = vs.length := by
  have hp : ((valueCounts vs).map (fun p => p.2)).Perm
      ((vs.dedup.map (fun v => (v, vs.count v))).map (fun p : String × Nat => p.2)) :=
    (sortByKeyDesc_perm _ _).map _
  rw [hp.sum_eq, List.map_map]
  simpa [Function.comp] using List.sum_map_count_dedup_eq_length vs

theorem valueCounts_pairwise (vs : List String) :
    (valueCounts vs).Pairwise (fun u v => v.2 ≤ u.2) :=
  sortByKeyDesc_pairwise _ _

theorem englishOnly_idem (df : List CommentRow) :
    englishOnly (englishOnly df) = englishOnly df := by
  unfold englishOnly
  rw [List.filter_filter]
  exact List.filter_congr (fun r _ => Bool.and_self _)

/-! ### Helper lemmas about the normalizer -/

theorem dropWhile_dropWhile {α : Type} (p : α → Bool) (l : List α) :
    List.dropWhile p (List.dropWhile p l) = List.dropWhile p l := by
  induction l with
  | nil => rfl
  | cons c cs ih =>
    rw [List.dropWhile_cons]
    split
    · exact ih
    · next hpc => rw [List.dropWhile_cons, if_neg hpc]

theorem head?_dropWhile {α : Type} (p : α → Bool) (l : List α) {a : α}
    (h : (List.dropWhile p l).head? = some a) : p a = false := by
  induction l with
  | nil => simp at h
  | cons c cs ih =>
    rw [List.dropWhile_cons] at h
    by_cases hpc : p c = true
    · exact ih (by rwa [if_pos hpc] at h)
    · rw [if_neg hpc] at h
      simp only [List.head?_cons, Option.some.injEq] at h
      rw [← h]
      exact Bool.eq_false_iff.mpr hpc

theorem dropWhile_eq_self {α : Type} (p : α → Bool) (l : List α)
    (h : ∀ a, l.head? = some a → p a = false) : List.dropWhile p l = l := by
  cases l with
  | nil => rfl
  | cons c cs =>
    rw [List.dropWhile_cons, if_neg]
    rw [h c rfl]
    simp

theorem getLast?_dropWhile {α : Type} (p : α → Bool) (l : List α)
    (h : List.dropWhile p l ≠ []) :
    (List.dropWhile p l).getLast? = l.getLast? := by
  induction l with
  | nil => simp at h
  | cons c cs ih =>
    rw [List.dropWhile_cons]
    by_cases hpc : p c = true
    · rw [if_pos hpc]
      rw [List.dropWhile_cons, if_pos hpc] at h
      have hcs : cs ≠ [] := by
        intro hnil
        exact h (by rw [hnil]; rfl)
      obtain ⟨b, l', rfl⟩ := List.exists_cons_of_ne_nil hcs
      rw [ih h, List.getLast?_cons_cons]
    · rw [if_neg hpc]

theorem trimText_idem (s : List Nat) : trimText (trimText s) = trimText s := by
  unfold trimText
  by_cases hv : List.dropWhile isWS (List.dropWhile isWS s).reverse = []
  · rw [hv]
    rfl
  · set u := (List.dropWhile isWS s).reverse with hu
    set v := List.dropWhile isWS u with hvdef
    have hstep1 : List.dropWhile isWS v.reverse = v.reverse := by
      apply dropWhile_eq_self
      intro a ha
      rw [List.head?_reverse] at ha
      rw [hvdef] at ha
      rw [getLast?_dropWhile isWS u hv, hu, List.getLast?_reverse] at ha
      exact head?_dropWhile isWS s ha
    rw [hstep1, List.reverse_reverse, hvdef, dropWhile_dropWhile]

theorem mem_trimText {a : Nat} {l : List Nat} (h : a ∈ trimText l) : a ∈ l := by
  unfold trimText at h
  rw [List.mem_reverse] at h
  have h1 := (List.dropWhile_sublist (l := (List.dropWhile isWS l).reverse) isWS).subset h
  rw [List.mem_reverse] at h1
  exact (List.dropWhile_sublist isWS).subset h1

theorem isWS_lowerCode (c : Nat) : isWS (lowerCode c) = isWS c := by
  unfold lowerCode
  split
  · next h =>
    simp only [Bool.and_eq_true, decide_eq_true_eq] at h
    have h1 : isWS (c + 32) = false := by
      simp only [isWS, Bool.or_eq_false_iff, decide_eq_false_iff_not]
      omega
    have h2 : isWS c = false := by
      simp only [isWS, Bool.or_eq_false_iff, decide_eq_false_iff_not]
      omega
    rw [h1, h2]
  · rfl

theorem isAllowed_lowerCode {c : Nat} (h : isAllowed c = true) :
    isAllowed (lowerCode c) = true := by
  unfold lowerCode
  split
  · next hc =>
    simp only [Bool.and_eq_true, decide_eq_true_eq] at hc
    simp only [isAllowed, Bool.or_eq_true, Bool.and_eq_true, decide_eq_true_eq]
    left; left; left
    omega
  · exact h

theorem lowerCode_lowerCode (c : Nat) :
    lowerCode (lowerCode c) = lowerCode c := by
  unfold lowerCode
  split
  · next h =>
    simp only [Bool.and_eq_true, decide_eq_true_eq] at h
    rw [if_neg]
    simp only [Bool.and_eq_true, decide_eq_true_eq, not_and]
    omega
  · rfl

theorem trimText_map_lowerCode (l : List Nat) :
    trimText (l.map lowerCode) = (trimText l).map lowerCode := by
  have hcomp : (isWS ∘ lowerCode) = isWS := funext isWS_lowerCode
  unfold trimText
  rw [List.dropWhile_map, hcomp, ← List.map_reverse, List.dropWhile_map, hcomp,
    ← List.map_reverse]

theorem normalize_mem_allowed (s : List Nat) :
    ∀ a ∈ normalize s, isAllowed a = true := by
  intro a ha
  unfold normalize at ha
  obtain ⟨b, hb, rfl⟩ := List.mem_map.mp ha
  have hb' := mem_trimText hb
  exact isAllowed_lowerCode (List.mem_filter.mp hb').2

theorem foldr_max_perm {l l' : List Nat} (h : l.Perm l') :
    l.foldr max 0 = l'.foldr max 0 := by
  induction h with
  | nil => rfl
  | cons x _ ih => simp only [List.foldr_cons, ih]
  | swap x y l =>
    simp only [List.foldr_cons]
    rw [← Nat.max_assoc, Nat.max_comm y x, Nat.max_assoc]
  | trans _ _ ih1 ih2 => exact ih1.trans ih2

theorem monthlyBuckets_perm {cs cs' : List DatedComment} (h : cs.Perm cs') :
    monthlyBuckets cs = monthlyBuckets cs' := by
  have hk : (cs.map monthKey).Perm (cs'.map monthKey) := h.map monthKey
  have hmax : (cs.map monthKey).foldr max 0 = (cs'.map monthKey).foldr max 0 :=
    foldr_max_perm hk
  have hfil : (List.range ((cs.map monthKey).foldr max 0 + 1)).filter
        (fun k => decide (k ∈ cs.map monthKey)) =
      (List.range ((cs'.map monthKey).foldr max 0 + 1)).filter
        (fun k => decide (k ∈ cs'.map monthKey)) := by
    rw [hmax]
    exact List.filter_congr (fun k _ => decide_eq_decide.mpr hk.mem_iff)
  unfold monthlyBuckets
  rw [hfil]
  exact List.map_congr_left (fun k _ => by rw [hk.count_eq k])

theorem monthlyBuckets_sorted (cs : List DatedComment) :
    (monthlyBuckets cs).Pairwise (fun u v => u.1 < v.1) := by
  unfold monthlyBuckets
  rw [List.pairwise_map]
  exact (List.pairwise_lt_range _).filter _

/-! ### Claim C1 -/

/-- C1, counterexample: on a table of six comments the "Most Liked
Comments" selection returns six records (more than K = 5), among them a
record whose sentiment is not the requested Positive; the code performs
no per-sentiment top-K selection. -/
theorem top11_not_topK_per_sentiment :
    ¬ ((top_11 dfSix).length ≤ 5 ∧
       ∀ rr ∈ top_11 dfSix, rr.sentiment = "POSITIVE") := by
  decide

/-- C1, amended: the "Most Liked Comments" selection returns at most 11
records, ranked by likeCount descending, each drawn from the comment
table; when the table has at most 11 rows, every comment is returned
regardless of its sentiment label. -/
theorem top11_length_sorted_subset (df : List CommentRow) :
    (top_11 df).length ≤ 11 ∧
    (top_11 df).Pairwise (fun u v => v.likes ≤ u.likes) ∧
    (∀ rr ∈ top_11 df, rr ∈ df) ∧
    (df.length ≤ 11 → (top_11 df).Perm df) := by
  unfold top_11
  refine ⟨List.length_take_le _ _, ?_, ?_, ?_⟩
  · exact List.Pairwise.sublist (List.take_sublist _ _)
      (sortByKeyDesc_pairwise (fun r => r.likes) df)
  · intro rr hrr
    exact (sortByKeyDesc_perm _ df).mem_iff.mp (List.take_subset _ _ hrr)
  · intro h
    exact sortTake_perm_of_le _ h

/-- C1, witness: on the two-row table, the selection is a permutation of
the whole table and its rows come from the table. -/
theorem top11_length_sorted_subset_witness :
    (top_11 dfPair).Perm dfPair ∧ mkRow "b" 7 2 "Spanish" "NEGATIVE" ∈ dfPair :=
  ⟨(top11_length_sorted_subset dfPair).2.2.2 (by decide),
   (top11_length_sorted_subset dfPair).2.2.1
     (mkRow "b" 7 2 "Spanish" "NEGATIVE") (by decide)⟩

/-! ### Claim C2 -/

/-- C2, counterexample: with one English Positive comment and one
Spanish Positive comment, the sentiment counts sum to 1, not to the 2
enriched comments, and the labels NEUTRAL and NEGATIVE are missing from
the counts table. -/
theorem sentimentDistribution_counterexample :
    ¬ (((sentimentCounts dfMixedLang).map (fun p => p.2)).sum =
          dfMixedLang.length ∧
       ∀ lab ∈ ["POSITIVE", "NEUTRAL", "NEGATIVE"],
         lab ∈ (sentimentCounts dfMixedLang).map (fun p => p.1)) := by
  decide

/-- C2, amended: the sentiment counts sum to the number of
English-language comments (not of all enriched comments), and only the
percentage chart data — in its normal branch — always carries the three
labels NEUTRAL, POSITIVE, NEGATIVE. -/
theorem sentimentDistribution_english_counts (df : List CommentRow) :
    ((sentimentCounts df).map (fun p => p.2)).sum = (englishOnly df).length ∧
    (hasNoSentimentData df = false →
      (dataList df).map (fun e => e.name) = ["NEUTRAL", "POSITIVE", "NEGATIVE"]) := by
  constructor
  · unfold sentimentCounts scTable
    rw [valueCounts_sum, List.length_map]
  · intro h
    have h' : (scTable (englishOnly df)).any
        (fun p => p.1 == "No sentiment data") = false := h
    unfold dataList dataListFrom
    rw [if_neg (by rw [h']; exact Bool.false_ne_true)]
    rfl

/-- C2, witness: on the three-comment table the counts sum to its two
English rows and the chart names are the three labels. -/
theorem sentimentDistribution_english_counts_witness :
    ((sentimentCounts dfThree).map (fun p => p.2)).sum = 2 ∧
    (dataList dfThree).map (fun e => e.name) =
      ["NEUTRAL", "POSITIVE", "NEGATIVE"] :=
  ⟨by rw [(sentimentDistribution_english_counts dfThree).1]; decide,
   (sentimentDistribution_english_counts dfThree).2 (by decide)⟩

/-! ### Claim C3 -/

/-- C3, counterexample: at viewCount = 0 (with likeCount = 3 and
commentCount = 2) the engagement-rate computation yields no defensive
result — `none` models the Python division-by-zero raise. -/
theorem engagementRate_zero_views_counterexample :
    engagementRate 3 2 0 = none := rfl

/-- C3, amended: the engagement rate is defined exactly when
viewCount ≠ 0; at viewCount = 0 the unguarded division raises. -/
theorem engagementRate_defined_iff (likes comments views : Nat) :
    (engagementRate likes comments views).isSome = true ↔ views ≠ 0 := by
  unfold engagementRate
  split
  · next h => simp [h]
  · next h => simp [h]

/-! ### Claim C4 -/

/-- C4, counterexample: the normalizer is not idempotent.  On the input
"Http" the first pass keeps the token (no lowercase `http` prefix),
removes nothing and lowercases it to `http`; the second pass then
removes that token as a URL match, so the results differ. -/
theorem normalize_not_idempotent :
    normalize (normalize (codes "Http")) ≠ normalize (codes "Http") := by
  decide

/-- C4, amended: the normalizer is idempotent on every input whose
normal form is free of URL tokens, i.e. whenever the URL-removal pass
leaves the normalized text unchanged; it fails to be idempotent only
when character removal or lowercasing manufactures a token matching the
URL pattern. -/
theorem normalize_idem_of_urlfree (x : List Nat)
    (h : removeURLs (normalize x) = normalize x) :
    normalize (normalize x) = normalize x := by
  have hallow : List.filter isAllowed (normalize x) = normalize x :=
    List.filter_eq_self.mpr (normalize_mem_allowed x)
  have hlower : (normalize x).map lowerCode = normalize x := by
    unfold normalize
    rw [List.map_map]
    exact List.map_congr_left (fun a _ => lowerCode_lowerCode a)
  have htrim : trimText (normalize x) = normalize x := by
    unfold normalize
    rw [trimText_map_lowerCode, trimText_idem]
  show (trimText ((removeURLs (normalize x)).filter isAllowed)).map lowerCode =
    normalize x
  rw [h, hallow, htrim]
  exact hlower

/-- C4, witness: an ordinary sentence normalizes to a URL-free normal
form, and on it normalization applied twice equals one application. -/
theorem normalize_idem_of_urlfree_witness :
    normalize (normalize (codes "Hello World 42")) =
      normalize (codes "Hello World 42") :=
  normalize_idem_of_urlfree (codes "Hello World 42") (by decide)

/-! ### Claim C5 -/

/-- C5, counterexample: normalizing "Http" yields exactly the text
`http`, which matches the URL-token pattern, so the output is not free
of URL substrings. -/
theorem normalize_url_residue_counterexample :
    normalize (codes "Http") = codes "http" ∧
      isURLToken (normalize (codes "Http")) = true := by
  decide

/-- C5, amended: every character of a normalized text belongs to the
allowed set (alphanumeric or whitespace) and the empty output is a valid
result (e.g. on pure punctuation); the output can, however, still
contain URL-pattern substrings. -/
theorem normalize_allowed_total :
    (∀ x : List Nat, (normalize x).all isAllowed = true) ∧
      normalize (codes "!?") = [] :=
  ⟨fun x => List.all_eq_true.mpr (normalize_mem_allowed x), by decide⟩

/-! ### Claim C6 -/

/-- C6: the monthly bucket sequence is strictly increasing in its month
key (chronological), and it is invariant under reordering of the input
comments. -/
theorem monthlyBuckets_chronological (cs cs' : List DatedComment) :
    (monthlyBuckets cs).Pairwise (fun u v => u.1 < v.1) ∧
    (cs.Perm cs' → monthlyBuckets cs = monthlyBuckets cs') :=
  ⟨monthlyBuckets_sorted cs, monthlyBuckets_perm⟩

/-- C6, witness: a concrete comment set spanning December 2022, January
2023 and March 2023 yields chronologically sorted buckets, identical for
two different input orders. -/
theorem monthlyBuckets_chronological_witness :
    (monthlyBuckets datesUnordered).Pairwise (fun u v => u.1 < v.1) ∧
    monthlyBuckets datesUnordered = monthlyBuckets datesShuffled :=
  ⟨(monthlyBuckets_chronological datesUnordered datesShuffled).1,
   (monthlyBuckets_chronological datesUnordered datesShuffled).2 (by decide)⟩

/-! ### Claim C7 -/

/-- C7: when the URL field is nonempty and the analysis body raises, the
run renders the error banner produced by the top-level handler instead
of crashing, and a session that continues with any further URL processes
it exactly as a fresh run — no state is corrupted. -/
theorem runApp_surfaces_errors
    (fv : String → Except String (List CommentRow))
    (fm : String → Except String (Nat × Nat × Nat)) (url e : String)
    (hurl : url ≠ "") (herr : appBody fv fm url = Except.error e) :
    runApp fv fm url = RenderResult.errorBanner e ∧
    ∀ url2, session fv fm [url, url2] =
      [RenderResult.errorBanner e, runApp fv fm url2] := by
  have h1 : runApp fv fm url = RenderResult.errorBanner e := by
    unfold runApp
    rw [if_neg hurl, herr]
  refine ⟨h1, fun url2 => ?_⟩
  unfold session
  rw [List.map_cons, List.map_cons, List.map_nil, h1]

/-- C7, witness: a retrieval that fails with a network error on the URL
"u" is surfaced as an error banner. -/
theorem runApp_surfaces_errors_witness :
    runApp (fun _ => Except.error "network failure")
      (fun _ => Except.ok (0, 0, 0)) "u" =
      RenderResult.errorBanner "network failure" :=
  (runApp_surfaces_errors (fun _ => Except.error "network failure")
    (fun _ => Except.ok (0, 0, 0)) "u" "network failure"
    (by decide) rfl).1

/-! ### Claim C8 -/

/-- C8: with the URL field left blank, a run renders nothing at all —
in particular no error banner and no page — and the result does not
depend on the external services, so no network call is made. -/
theorem runApp_blank_url
    (fv : String → Except String (List CommentRow))
    (fm : String → Except String (Nat × Nat × Nat)) :
    runApp fv fm "" = RenderResult.blank := by
  unfold runApp
  rw [if_pos rfl]

/-! ### Claim C9 -/

/-- C9: the sentiment chart depends only on the English-language subset
of the comment table, while the language histogram counts every comment
and the most-liked and most-replied views draw from the whole table
(when it has at most 11 rows they return all of it, regardless of
language). -/
theorem views_language_scope (df : List CommentRow) :
    dataList df = dataList (englishOnly df) ∧
    ((langCounts df).map (fun p => p.2)).sum = df.length ∧
    (df.length ≤ 11 → (top_11 df).Perm df ∧ (topReplies11 df).Perm df) := by
  refine ⟨?_, ?_, ?_⟩
  · unfold dataList
    rw [englishOnly_idem]
  · unfold langCounts
    rw [valueCounts_sum, List.length_map]
  · intro h
    unfold top_11 topReplies11
    exact ⟨sortTake_perm_of_le _ h, sortTake_perm_of_le _ h⟩

/-- C9, witness: on a table with an English and a German comment, the
chart equals the chart of the English subset while the most-liked view
returns both comments. -/
theorem views_language_scope_witness :
    dataList dfScope = dataList (englishOnly dfScope) ∧
      (top_11 dfScope).Perm dfScope :=
  ⟨(views_language_scope dfScope).1,
   ((views_language_scope dfScope).2.2 (by decide)).1⟩

/-! ### Claim C10 -/

/-- C10: when "No sentiment data" occurs among the sentiment values the
chart data is the single entry of that name carrying the raw count of
the most frequent value (the head of the count-sorted table bounds every
count); otherwise the chart data is exactly the three entries NEUTRAL,
POSITIVE, NEGATIVE, every value is a percentage, and a label absent from
the counts table gets percentage 0. -/
theorem dataList_branches (df : List CommentRow) :
    (hasNoSentimentData df = true →
      dataList df = [⟨"No sentiment data",
        ChartVal.count (((sentimentCounts df).headD ("", 0)).2)⟩] ∧
      ∀ p ∈ sentimentCounts df,
        p.2 ≤ ((sentimentCounts df).headD ("", 0)).2) ∧
    (hasNoSentimentData df = false →
      (dataList df).map (fun e => e.name) = ["NEUTRAL", "POSITIVE", "NEGATIVE"] ∧
      (∀ e ∈ dataList df,
        e.name ∉ (sentimentCounts df).map (fun p => p.1) →
          e.value = ChartVal.percent 0) ∧
      ∀ e ∈ dataList df, ∃ q, e.value = ChartVal.percent q) := by
  constructor
  · intro h
    have h' : (scTable (englishOnly df)).any
        (fun p => p.1 == "No sentiment data") = true := h
    constructor
    · unfold dataList dataListFrom
      rw [if_pos h']
      rfl
    · have hpw : (sentimentCounts df).Pairwise (fun u v => v.2 ≤ u.2) :=
        valueCounts_pairwise _
      cases hsc : sentimentCounts df with
      | nil =>
        intro p hp
        simp at hp
      | cons hd tl =>
        intro p hp
        rw [hsc] at hpw
        rcases List.pairwise_cons.mp hpw with ⟨hhd, _⟩
        rcases List.mem_cons.mp hp with rfl | hp'
        · exact Nat.le_refl _
        · exact hhd p hp'
  · intro h
    have h' : (scTable (englishOnly df)).any
        (fun p => p.1 == "No sentiment data") = false := h
    have hdl : dataList df =
        [⟨"NEUTRAL", ChartVal.percent (pmGet (scWithPct (englishOnly df)) "NEUTRAL")⟩,
         ⟨"POSITIVE", ChartVal.percent (pmGet (scWithPct (englishOnly df)) "POSITIVE")⟩,
         ⟨"NEGATIVE", ChartVal.percent (pmGet (scWithPct (englishOnly df)) "NEGATIVE")⟩] := by
      unfold dataList dataListFrom
      rw [if_neg (by rw [h']; exact Bool.false_ne_true)]
    have habs : ∀ lab : String,
        lab ∉ (sentimentCounts df).map (fun p => p.1) →
        pmGet (scWithPct (englishOnly df)) lab = 0 := by
      intro lab hlab
      unfold pmGet
      rw [List.find?_eq_none.mpr ?_]
      intro r hr
      obtain ⟨p, hp, rfl⟩ := List.mem_map.mp hr
      simp only [beq_iff_eq, decide_eq_true_eq]
      intro hEq
      exact hlab (hEq ▸ List.mem_map.mpr ⟨p, hp, rfl⟩)
    refine ⟨by rw [hdl]; rfl, ?_, ?_⟩
    · intro e he hnot
      rw [hdl] at he
      simp only [List.mem_cons, List.not_mem_nil, or_false] at he
      rcases he with rfl | rfl | rfl
      · show ChartVal.percent _ = ChartVal.percent 0
        rw [habs "NEUTRAL" hnot]
      · show ChartVal.percent _ = ChartVal.percent 0
        rw [habs "POSITIVE" hnot]
      · show ChartVal.percent _ = ChartVal.percent 0
        rw [habs "NEGATIVE" hnot]
    · intro e he
      rw [hdl] at he
      simp only [List.mem_cons, List.not_mem_nil, or_false] at he
      rcases he with rfl | rfl | rfl <;> exact ⟨_, rfl⟩

/-- C10, witness: a table whose sentiments include "No sentiment data"
yields the single raw-count entry, and an ordinary table yields the
three fixed labels. -/
theorem dataList_branches_witness :
    dataList dfNoSent = [⟨"No sentiment data",
      ChartVal.count (((sentimentCounts dfNoSent).headD ("", 0)).2)⟩] ∧
    (dataList dfLabelled).map (fun e => e.name) =
      ["NEUTRAL", "POSITIVE", "NEGATIVE"] :=
  ⟨((dataList_branches dfNoSent).1 (by decide)).1,
   ((dataList_branches dfLabelled).2 (by decide)).1⟩

end YTCPA
